import Mathlib

/-!
Shallow embedding of the SeaweedFS read path and FUSE handle table:
`weed/filesys/wfs.go` (handle acquisition and release) and
`weed/server/filer_server_handlers_read.go` (the GET/HEAD read responder).
-/

set_option autoImplicit false

namespace SeaweedFS

/-! ## Handle table (`weed/filesys/wfs.go`)

A `FileHandle` is modelled by the data `AcquireHandle` stores in it: the
file's full path it was opened against, the owning uid/gid, and the numeric
`handle` identifier. Go's `[]*FileHandle` becomes `List (Option FileHandle)`
(`none` is the nil slot), and `map[string]int` becomes an association list
with map semantics (insert overwrites, erase removes the binding). -/

structure FileHandle where
  fullpath : String
  uid : Nat
  gid : Nat
  handle : Nat
deriving Repr, DecidableEq

/-- Lookup in the `pathToHandleIndex` map (Go `index, found := m[k]`). -/
def mapLookup (m : List (String × Nat)) (k : String) : Option Nat :=
  match m with
  | [] => none
  | (k2, v) :: rest => if k2 = k then some v else mapLookup rest k

/-- Map update `m[k] = v`: overwrite the binding for `k`, or add one. -/
def mapInsert (m : List (String × Nat)) (k : String) (v : Nat) : List (String × Nat) :=
  match m with
  | [] => [(k, v)]
  | (k2, v2) :: rest => if k2 = k then (k, v) :: rest else (k2, v2) :: mapInsert rest k v

/-- Map removal `delete(m, k)`: drop every binding for `k`. -/
def mapErase (m : List (String × Nat)) (k : String) : List (String × Nat) :=
  match m with
  | [] => []
  | (k2, v2) :: rest => if k2 = k then mapErase rest k else (k2, v2) :: mapErase rest k

/-- The mutable state of `WFS` that `AcquireHandle`/`ReleaseHandle` touch:
`handles []*FileHandle` and `pathToHandleIndex map[string]int`. The mutex is
not modelled; each call is one atomic state transition. -/
structure WFS where
  handles : List (Option FileHandle)
  pathToHandleIndex : List (String × Nat)
deriving Repr, DecidableEq

/-- Index of the first nil slot of the handle table, if any: the slot the
`for i, h := range wfs.handles { if h == nil { ... } }` scan picks. -/
def firstNilIndex : List (Option FileHandle) → Option Nat
  | [] => none
  | none :: _ => some 0
  | some _ :: rest => (firstNilIndex rest).map (· + 1)

/-- The scan-and-append tail of `AcquireHandle` (wfs.go lines 105-121): build
`newFileHandle(file, uid, gid)`, put it into the first nil slot if one exists
(setting `fileHandle.handle` and `pathToHandleIndex[fullpath]` to that index),
else append it, growing the table by one. -/
def acquireScan (wfs : WFS) (fullpath : String) (uid gid : Nat) : FileHandle × WFS :=
  match firstNilIndex wfs.handles with
  | some i =>
    let fh : FileHandle := ⟨fullpath, uid, gid, i⟩
    (fh, ⟨wfs.handles.set i (some fh), mapInsert wfs.pathToHandleIndex fullpath i⟩)
  | none =>
    let i := wfs.handles.length
    let fh : FileHandle := ⟨fullpath, uid, gid, i⟩
    (fh, ⟨wfs.handles ++ [some fh], mapInsert wfs.pathToHandleIndex fullpath i⟩)

/-- `WFS.AcquireHandle` (wfs.go lines 86-122). If `pathToHandleIndex` has an
index for the path and that slot is non-nil, the stored handle is returned
unchanged. The source's second branch repeats the exact same condition
`found && wfs.handles[index] != nil`, so it can never run; when the mapped
slot is nil, control falls through to the free-slot scan. Go's
`wfs.handles[index]` assumes the index is in bounds; an out-of-range index is
read as a nil slot here. -/
def AcquireHandle (wfs : WFS) (fullpath : String) (uid gid : Nat) : FileHandle × WFS :=
  match mapLookup wfs.pathToHandleIndex fullpath with
  | some index =>
    match wfs.handles.getD index none with
    | some fh => (fh, wfs)
    | none => acquireScan wfs fullpath uid gid
  | none => acquireScan wfs fullpath uid gid

/-- `WFS.ReleaseHandle` (wfs.go lines 124-135): always delete the path's map
binding; null the slot only when `handleId` is within bounds. -/
def ReleaseHandle (wfs : WFS) (fullpath : String) (handleId : Nat) : WFS :=
  ⟨if handleId < wfs.handles.length then wfs.handles.set handleId none else wfs.handles,
   mapErase wfs.pathToHandleIndex fullpath⟩

/-- One call into the handle table. -/
inductive HandleOp where
  | acquire (fullpath : String) (uid gid : Nat)
  | release (fullpath : String) (handleId : Nat)

/-- Apply one handle-table call to the state. -/
def applyHandleOp (wfs : WFS) : HandleOp → WFS
  | .acquire p u g => (AcquireHandle wfs p u g).2
  | .release p i => ReleaseHandle wfs p i

/-- Apply a sequence of handle-table calls, oldest first. -/
def applyHandleOps (wfs : WFS) (ops : List HandleOp) : WFS :=
  ops.foldl applyHandleOp wfs

theorem acquireScan_length (wfs : WFS) (p : String) (u g : Nat) :
    (acquireScan wfs p u g).2.handles.length = wfs.handles.length ∨
      ((acquireScan wfs p u g).2.handles.length = wfs.handles.length + 1 ∧
        firstNilIndex wfs.handles = none) := by
  unfold acquireScan
  cases h : firstNilIndex wfs.handles with
  | none => simp [h]
  | some i => simp [h, List.length_set]

theorem acquire_cases (wfs : WFS) (p : String) (u g : Nat) :
    AcquireHandle wfs p u g = acquireScan wfs p u g ∨ (AcquireHandle wfs p u g).2 = wfs := by
  unfold AcquireHandle
  split
  · split
    · exact Or.inr rfl
    · exact Or.inl rfl
  · exact Or.inl rfl

theorem acquire_length (wfs : WFS) (p : String) (u g : Nat) :
    (AcquireHandle wfs p u g).2.handles.length = wfs.handles.length ∨
      ((AcquireHandle wfs p u g).2.handles.length = wfs.handles.length + 1 ∧
        firstNilIndex wfs.handles = none) := by
  rcases acquire_cases wfs p u g with h | h
  · rw [h]; exact acquireScan_length wfs p u g
  · rw [h]; exact Or.inl rfl

theorem release_length (wfs : WFS) (p : String) (i : Nat) :
    (ReleaseHandle wfs p i).handles.length = wfs.handles.length := by
  unfold ReleaseHandle
  by_cases h : i < wfs.handles.length <;> simp [h, List.length_set]

theorem applyHandleOp_length_le (wfs : WFS) (op : HandleOp) :
    wfs.handles.length ≤ (applyHandleOp wfs op).handles.length := by
  cases op with
  | acquire p u g =>
    simp only [applyHandleOp]
    rcases acquire_length wfs p u g with h | ⟨h, _⟩ <;> omega
  | release p i =>
    simp only [applyHandleOp]
    have h := release_length wfs p i
    omega

theorem applyHandleOps_length_le (wfs : WFS) (ops : List HandleOp) :
    wfs.handles.length ≤ (applyHandleOps wfs ops).handles.length := by
  induction ops generalizing wfs with
  | nil => exact Nat.le_refl _
  | cons op rest ih =>
    calc wfs.handles.length
        ≤ (applyHandleOp wfs op).handles.length := applyHandleOp_length_le wfs op
      _ ≤ (applyHandleOps (applyHandleOp wfs op) rest).handles.length :=
          ih (applyHandleOp wfs op)

/-- C10: over any sequence of AcquireHandle/ReleaseHandle calls the handle
table never shrinks; ReleaseHandle preserves the table length, and
AcquireHandle either keeps the length or grows it by exactly one, the latter
only when the table has no nil slot. -/
theorem handle_table_never_shrinks (wfs : WFS) (ops : List HandleOp) :
    wfs.handles.length ≤ (applyHandleOps wfs ops).handles.length ∧
    (∀ p i, (ReleaseHandle wfs p i).handles.length = wfs.handles.length) ∧
    (∀ p u g, (AcquireHandle wfs p u g).2.handles.length = wfs.handles.length ∨
      ((AcquireHandle wfs p u g).2.handles.length = wfs.handles.length + 1 ∧
        firstNilIndex wfs.handles = none)) :=
  ⟨applyHandleOps_length_le wfs ops,
   fun p i => release_length wfs p i,
   fun p u g => acquire_length wfs p u g⟩

/-- C5: with a live handle stored for the path, AcquireHandle returns the
stored handle and leaves the state unchanged, so a second call with no
intervening release returns the identical handle (same identifier). -/
theorem acquire_twice_same_handle (wfs : WFS) (p : String) (u g u2 g2 : Nat)
    (i : Nat) (fh : FileHandle)
    (hidx : mapLookup wfs.pathToHandleIndex p = some i)
    (hlive : wfs.handles.getD i none = some fh) :
    AcquireHandle wfs p u g = (fh, wfs) ∧
    AcquireHandle (AcquireHandle wfs p u g).2 p u2 g2 = (fh, wfs) := by
  have h1 : ∀ a b : Nat, AcquireHandle wfs p a b = (fh, wfs) := by
    intro a b
    simp only [AcquireHandle, hidx, hlive]
  exact ⟨h1 u g, by rw [h1 u g]; exact h1 u2 g2⟩

/-- C5 witness: a concrete one-slot table with a live handle for "/a/b". -/
theorem acquire_twice_same_handle_concrete :
    AcquireHandle ⟨[some ⟨"/a/b", 7, 8, 0⟩], [("/a/b", 0)]⟩ "/a/b" 1 2 =
      (⟨"/a/b", 7, 8, 0⟩, ⟨[some ⟨"/a/b", 7, 8, 0⟩], [("/a/b", 0)]⟩) ∧
    AcquireHandle (AcquireHandle ⟨[some ⟨"/a/b", 7, 8, 0⟩], [("/a/b", 0)]⟩ "/a/b" 1 2).2
        "/a/b" 3 4 =
      (⟨"/a/b", 7, 8, 0⟩, ⟨[some ⟨"/a/b", 7, 8, 0⟩], [("/a/b", 0)]⟩) :=
  acquire_twice_same_handle ⟨[some ⟨"/a/b", 7, 8, 0⟩], [("/a/b", 0)]⟩ "/a/b" 1 2 3 4 0
    ⟨"/a/b", 7, 8, 0⟩ (by decide) (by decide)

/-- C4: the table maps "/p" to slot 1, slot 1 was released (nil), and slot 0
is also nil. The source's reinit-into-the-mapped-slot branch is dead code (its
condition repeats the non-nil test), so the first-fit scan runs instead and
places the fresh handle in slot 0 with identifier 0, not in the mapped slot 1. -/
theorem acquire_mapped_nil_slot_goes_first_fit :
    (AcquireHandle ⟨[none, none], [("/p", 1)]⟩ "/p" 3 4).1.handle = 0 ∧
    (AcquireHandle ⟨[none, none], [("/p", 1)]⟩ "/p" 3 4).2 =
      ⟨[some ⟨"/p", 3, 4, 0⟩, none], [("/p", 0)]⟩ ∧
    (0 : Nat) ≠ 1 := by
  refine ⟨?_, ?_, by decide⟩ <;> decide

/-- C6 counterexample: with an empty handle table and the map binding
"/p" ↦ 0, releasing "/p" with the out-of-bounds id 5 still deletes the map
binding, so the state is not left unchanged. -/
theorem release_out_of_bounds_not_noop :
    ReleaseHandle ⟨[], [("/p", 0)]⟩ "/p" 5 ≠ ⟨[], [("/p", 0)]⟩ := by
  decide

/-- C6 amended: an out-of-bounds id leaves the handle table unchanged, but the
path's binding is still removed from the path-to-index map. -/
theorem release_out_of_bounds_frame (wfs : WFS) (p : String) (i : Nat)
    (h : wfs.handles.length ≤ i) :
    (ReleaseHandle wfs p i).handles = wfs.handles ∧
    (ReleaseHandle wfs p i).pathToHandleIndex = mapErase wfs.pathToHandleIndex p := by
  unfold ReleaseHandle
  have hlt : ¬ i < wfs.handles.length := by omega
  simp [hlt]

/-- C6 amended witness: the concrete out-of-bounds release. -/
theorem release_out_of_bounds_frame_concrete :
    (ReleaseHandle ⟨[], [("/p", 0)]⟩ "/p" 5).handles = ([] : List (Option FileHandle)) ∧
    (ReleaseHandle ⟨[], [("/p", 0)]⟩ "/p" 5).pathToHandleIndex =
      mapErase [("/p", 0)] "/p" :=
  release_out_of_bounds_frame ⟨[], [("/p", 0)]⟩ "/p" 5 (by decide)

/-! ## Read responder (`weed/server/filer_server_handlers_read.go`)

The GET/HEAD handler is embedded as a pure decision function from the request
(path, method, Range header, query) and the collaborator results (metadata
lookup, chunk-location lookup, upstream fetch, decryption) to the response the
handler commits to. Bytes are `Nat`s. -/

/-- One stored chunk, with the fields the read path consults: file id, offset
within the logical file, size, the optional cipher key, and the fingerprint
feeding the aggregate ETag. -/
structure FileChunk where
  fileId : String
  offset : Nat
  size : Nat
  cipherKey : Option (List Nat)
  etag : String
deriving Repr, DecidableEq

/-- A metadata entry as the handler reads it: name, directory flag, mime and
mtime from `entry.Attr`, and the ordered chunk list. -/
structure Entry where
  name : String
  isDirectory : Bool
  mime : String
  mtime : Nat
  chunks : List FileChunk
deriving Repr, DecidableEq

/-- Modelled from the spec: `filer2.TotalSize(chunks)` is declared outside the
given sources; per the spec it is the sum of each chunk's size, 0 for an empty
chunk list. -/
def TotalSize (chunks : List FileChunk) : Nat :=
  chunks.foldl (fun acc c => acc + c.size) 0

/-- Modelled from the spec: `filer2.ETag(chunks)` is declared outside the given
sources; per the spec it is a deterministic aggregate of the ordered per-chunk
fingerprints. -/
def ETag (chunks : List FileChunk) : String :=
  String.intercalate "," (chunks.map (·.etag))

/-- Result of `fs.filer.FindEntry`: the entry, `filer2.ErrNotFound`, or any
other lookup error. -/
inductive FindResult where
  | found (e : Entry)
  | notFound
  | otherError
deriving Repr, DecidableEq

/-- What `GetOrHeadHandler` commits to before delegating: a directory listing,
a bare status write, the HEAD header-only response, or dispatch to the
single-chunk or multi-chunk handler for the entry. -/
inductive ReadOutcome where
  | listDir
  | httpStatus (code : Nat)
  | headOnly (contentLength : Nat) (lastModified : Nat) (mime : Option String) (etag : String)
  | singleChunk (e : Entry)
  | multiChunk (e : Entry)
deriving Repr, DecidableEq

/-- `strings.HasSuffix(path, "/")` (line 25): the path ends in '/'. -/
def isForDirectory (rawPath : String) : Bool := rawPath.data.getLast? = some '/'

/-- Lines 25-28: `path = path[:len(path)-1]` when the path ends in '/' and is
longer than "/" (the dropped suffix is the one-byte character '/'). -/
def normalizePath (rawPath : String) : String :=
  if isForDirectory rawPath ∧ rawPath.data.length > 1 then ⟨rawPath.data.dropLast⟩
  else rawPath

/-- `GetOrHeadHandler` (lines 22-87). On any `FindEntry` error the root path
falls into the directory-listing synthesis before the error kind is examined;
elsewhere `ErrNotFound` writes 404 and any other error 500. Directories list
(or 405 when listing is disabled), a trailing slash on a file is 404, an empty
chunk list is 204 before the HEAD branch, HEAD answers headers only, and one
or several chunks dispatch to the chunk handlers. -/
def GetOrHeadHandler (rawPath : String) (method : String)
    (find : String → FindResult) (disableDirListing : Bool) : ReadOutcome :=
  let p := normalizePath rawPath
  match find p with
  | .notFound => if p = "/" then .listDir else .httpStatus 404
  | .otherError => if p = "/" then .listDir else .httpStatus 500
  | .found entry =>
    if entry.isDirectory then
      if disableDirListing then .httpStatus 405 else .listDir
    else if isForDirectory rawPath then .httpStatus 404
    else if entry.chunks = [] then .httpStatus 204
    else if method = "HEAD" then
      .headOnly (TotalSize entry.chunks) entry.mtime
        (if entry.mime = "" then none else some entry.mime) (ETag entry.chunks)
    else if entry.chunks.length = 1 then .singleChunk entry
    else .multiChunk entry

/-- A resolved URL: its base (scheme, host, path) and its query as an ordered
key-value list. Go's `url.Values` with `Add` appending to a key's value list
is modelled by the pair list: the values of key `k` are the pairs whose first
component is `k`, in order. -/
structure Url where
  base : String
  query : List (String × String)
deriving Repr, DecidableEq

/-- The upstream response of `util.Do` once the handler is done with it: the
status code and the body bytes, `none` when reading the body
(`ioutil.ReadAll`) fails. -/
structure FetchResp where
  status : Nat
  body : Option (List Nat)
deriving Repr, DecidableEq

/-- What the proxied branch writes: the status code, the `Content-Length`
value when the handler sets that header itself, and the body bytes. -/
structure ProxiedResponse where
  status : Nat
  contentLength : Option Nat
  body : List Nat
deriving Repr, DecidableEq

/-- Outcome of `handleSingleChunk`: lookup failure (404), the 302 redirect
with its target URL, upstream connect failure (500 json error), or the
proxied response, recording the proxy target URL and how many upstream
fetches were issued. -/
inductive SingleChunkOutcome where
  | lookupFailed
  | redirect (location : Url)
  | fetchFailed500
  | proxied (target : Url) (resp : ProxiedResponse) (fetches : Nat)
deriving Repr, DecidableEq

/-- The proxy target of lines 106-113: `q := u.Query()`, then every original
request query pair is `q.Add`ed, appending after the resolved URL's own pairs. -/
def proxyTarget (u0 : Url) (reqQuery : List (String × String)) : Url :=
  ⟨u0.base, u0.query ++ reqQuery⟩

/-- `writeEncryptedChunk` (lines 150-167): read the whole upstream body
(failure → 404), decrypt it with the chunk's cipher key (failure → 404), else
set `Content-Length` to the chunk's size and write the decrypted bytes under
the upstream status code. `util.Decrypt` is declared outside the given
sources, so the cipher is the parameter `decrypt bytes key`. -/
def writeEncryptedChunk (decrypt : List Nat → List Nat → Option (List Nat))
    (resp : FetchResp) (cipherKey : List Nat) (chunkSize : Nat) : ProxiedResponse :=
  match resp.body with
  | none => ⟨404, none, []⟩
  | some encryptedData =>
    match decrypt encryptedData cipherKey with
    | none => ⟨404, none, []⟩
    | some decryptedData => ⟨resp.status, some chunkSize, decryptedData⟩

/-- `handleSingleChunk` (lines 89-148) for an entry whose one chunk carries
`cipherKey` and `chunkSize`. `LookupFileId`, `util.Do` and `util.Decrypt` are
declared outside the given sources and enter as parameters: `lookup` is the
resolved chunk URL (`none` = lookup error → 404), `doFetch` the upstream
request (`none` = connect error → 500), `decrypt` the cipher. The redirect
branch (lines 100-104) fires only when redirect-on-read is set and the cipher
key is nil, and redirects to the looked-up URL itself; the query merge happens
only when building the proxied request. The source has a single `util.Do`
call and no retry loop, recorded in the `fetches` count. -/
def handleSingleChunk (redirectOnRead : Bool) (cipherKey : Option (List Nat))
    (chunkSize : Nat) (lookup : Option Url) (reqQuery : List (String × String))
    (doFetch : Url → Option FetchResp)
    (decrypt : List Nat → List Nat → Option (List Nat)) : SingleChunkOutcome :=
  match lookup with
  | none => .lookupFailed
  | some u0 =>
    if redirectOnRead ∧ cipherKey = none then .redirect u0
    else
      let u := proxyTarget u0 reqQuery
      match doFetch u with
      | none => .fetchFailed500
      | some resp =>
        match cipherKey with
        | none => .proxied u ⟨resp.status, none, resp.body.getD []⟩ 1
        | some key => .proxied u (writeEncryptedChunk decrypt resp key chunkSize) 1

/-- A parsed byte range of the `Range` header: `start` and `length`, both
`int64` in the source. -/
structure HttpRange where
  start : Int
  length : Int
deriving Repr, DecidableEq

/-- Modelled from the spec: `sumRangesSize` (the net/http helper the source
calls at line 202) is declared outside the given sources; it sums the parsed
range lengths. -/
def sumRangesSize (ranges : List HttpRange) : Int :=
  ranges.foldl (fun acc ra => acc + ra.length) 0

/-- Outcome of `handleMultipleChunks`: the full unranged body with its
`Content-Length`, a parse failure (416), a bare return that writes no body at
all (200 with an empty body), the single-range 206, the out-of-range 416, or
the multipart 206. -/
inductive MultiChunkOutcome where
  | fullContent (contentLength : Nat)
  | parseFailed416
  | noBodyWritten
  | singleRange (ra : HttpRange) (totalSize : Nat)
  | outOfRange416
  | multipart (ranges : List HttpRange) (totalSize : Nat)
deriving Repr, DecidableEq

/-- `handleMultipleChunks` (lines 169-274). `parseRange` (line 197) is
declared outside the given sources and enters as a parameter (`none` = parse
error). An empty `Range` header streams the whole file with `Content-Length`
set to the total size. After a successful parse: when the ranges sum to more
than the total size the source's bare `return` (lines 202-208) writes no body;
zero ranges also write nothing; one range is answered as a 206 for that range;
with several ranges, any range starting past the total size aborts with 416,
else the multipart 206 is produced. -/
def handleMultipleChunks (entry : Entry) (rangeReq : String)
    (parseRange : String → Int → Option (List HttpRange)) : MultiChunkOutcome :=
  let totalSize := TotalSize entry.chunks
  if rangeReq = "" then .fullContent totalSize
  else
    match parseRange rangeReq (totalSize : Int) with
    | none => .parseFailed416
    | some ranges =>
      if sumRangesSize ranges > (totalSize : Int) then .noBodyWritten
      else
        match ranges with
        | [] => .noBodyWritten
        | [ra] => .singleRange ra totalSize
        | ra1 :: ra2 :: rest =>
          if (ra1 :: ra2 :: rest).any (fun ra => ra.start > (totalSize : Int)) then
            .outOfRange416
          else .multipart (ra1 :: ra2 :: rest) totalSize

/-- C3 counterexample: a non-not-found lookup failure for the root path "/"
synthesizes the root directory listing instead of the HTTP 500 the claim
requires for any other lookup failure on any path including root. -/
theorem resolve_root_error_lists_directory :
    GetOrHeadHandler "/" "GET" (fun _ => FindResult.otherError) false =
      ReadOutcome.listDir ∧
    ReadOutcome.listDir ≠ ReadOutcome.httpStatus 500 := by
  exact ⟨by decide, by decide⟩

/-- C3 amended: the resolve step checks the root path before the error kind:
any lookup failure (not-found or otherwise) for the root synthesizes the root
directory listing; elsewhere a not-found result yields 404 and any other
lookup failure yields 500. -/
theorem resolve_error_case_split (rawPath method : String) (ddl : Bool)
    (find1 find2 : String → FindResult)
    (h1 : find1 (normalizePath rawPath) = FindResult.notFound)
    (h2 : find2 (normalizePath rawPath) = FindResult.otherError) :
    GetOrHeadHandler rawPath method find1 ddl =
      (if normalizePath rawPath = "/" then ReadOutcome.listDir
       else ReadOutcome.httpStatus 404) ∧
    GetOrHeadHandler rawPath method find2 ddl =
      (if normalizePath rawPath = "/" then ReadOutcome.listDir
       else ReadOutcome.httpStatus 500) := by
  constructor <;> simp only [GetOrHeadHandler, h1, h2]

/-- C3 amended, at a concrete non-root path. -/
theorem resolve_error_case_split_concrete :
    GetOrHeadHandler "/x" "GET" (fun _ => FindResult.notFound) false =
      (if normalizePath "/x" = "/" then ReadOutcome.listDir
       else ReadOutcome.httpStatus 404) ∧
    GetOrHeadHandler "/x" "GET" (fun _ => FindResult.otherError) false =
      (if normalizePath "/x" = "/" then ReadOutcome.listDir
       else ReadOutcome.httpStatus 500) :=
  resolve_error_case_split "/x" "GET" false (fun _ => FindResult.notFound)
    (fun _ => FindResult.otherError) rfl rfl

/-- C7 counterexample: a HEAD request for a zero-chunk entry hits the
empty-file check before the HEAD branch and answers a bare 204, not a
header-only response carrying `Content-Length: 0`. -/
theorem head_zero_chunks_no_content_length :
    GetOrHeadHandler "/f" "HEAD"
      (fun _ => FindResult.found ⟨"f", false, "", 0, []⟩) false =
      ReadOutcome.httpStatus 204 ∧
    ReadOutcome.httpStatus 204 ≠ ReadOutcome.headOnly 0 0 none (ETag []) := by
  exact ⟨by decide, by decide⟩

/-- C7 amended: for a non-directory entry with no chunks, requested without a
trailing slash, both GET and HEAD answer 204 No Content: the zero-chunk check
runs before the HEAD short-circuit, and no Content-Length header is set. -/
theorem zero_chunks_no_content (rawPath method : String) (find : String → FindResult)
    (ddl : Bool) (e : Entry)
    (hfind : find (normalizePath rawPath) = FindResult.found e)
    (hdir : e.isDirectory = false)
    (hslash : isForDirectory rawPath = false)
    (hchunks : e.chunks = []) :
    GetOrHeadHandler rawPath method find ddl = ReadOutcome.httpStatus 204 := by
  simp only [GetOrHeadHandler, hfind, hdir, hslash, hchunks]
  simp

/-- C7 amended at a concrete zero-chunk entry, for both methods. -/
theorem zero_chunks_no_content_concrete :
    GetOrHeadHandler "/f" "GET"
      (fun _ => FindResult.found ⟨"f", false, "", 0, []⟩) false =
      ReadOutcome.httpStatus 204 :=
  zero_chunks_no_content "/f" "GET" (fun _ => FindResult.found ⟨"f", false, "", 0, []⟩)
    false ⟨"f", false, "", 0, []⟩ rfl rfl (by decide) rfl

/-- C2 counterexample: redirect enabled, unencrypted single chunk, resolved
URL `http://vol/3,01?b=2`, original request query `a=1`: the 302 target is the
resolved URL unchanged, not the claimed merge that would append `a=1` after
`b=2`. -/
theorem redirect_drops_request_query :
    handleSingleChunk true none 5 (some ⟨"http://vol/3,01", [("b", "2")]⟩)
      [("a", "1")] (fun _ => none) (fun _ _ => none) =
      SingleChunkOutcome.redirect ⟨"http://vol/3,01", [("b", "2")]⟩ ∧
    SingleChunkOutcome.redirect ⟨"http://vol/3,01", [("b", "2")]⟩ ≠
      SingleChunkOutcome.redirect ⟨"http://vol/3,01", [("b", "2"), ("a", "1")]⟩ := by
  exact ⟨by decide, by decide⟩

/-- C2 amended: when the redirect branch fires (redirect-on-read set, no
cipher key, lookup succeeded), the 302 target is the resolved URL exactly as
looked up, with no query merging; the merge appending every original request
query pair after the resolved URL's own pairs is applied to the proxied
request target instead, whenever the request is proxied. -/
theorem redirect_target_is_resolved_url (chunkSize : Nat) (u0 : Url)
    (reqQuery : List (String × String)) (doFetch : Url → Option FetchResp)
    (decrypt : List Nat → List Nat → Option (List Nat)) :
    handleSingleChunk true none chunkSize (some u0) reqQuery doFetch decrypt =
      SingleChunkOutcome.redirect u0 ∧
    (∀ (ror : Bool) (ck : Option (List Nat)) (target : Url)
        (resp : ProxiedResponse) (n : Nat),
      handleSingleChunk ror ck chunkSize (some u0) reqQuery doFetch decrypt =
          SingleChunkOutcome.proxied target resp n →
      target.query = u0.query ++ reqQuery) := by
  constructor
  · simp [handleSingleChunk]
  · intro ror ck target resp n h
    revert h
    simp only [handleSingleChunk, proxyTarget]
    split
    · intro h; cases h
    · cases hdo : doFetch ⟨u0.base, u0.query ++ reqQuery⟩ with
      | none => intro h; cases h
      | some r =>
        cases ck with
        | none => intro h; cases h; rfl
        | some key => intro h; cases h; rfl

/-- C8: a single chunk carrying a cipher key is never answered with a
redirect, whatever the redirect-on-read option: the redirect branch requires a
nil cipher key, so the request is proxied, and a successful fetch is passed
through `writeEncryptedChunk`, which decrypts the fetched bytes before
writing them. -/
theorem encrypted_chunk_never_redirects (ror : Bool) (ck : List Nat)
    (chunkSize : Nat) (lookup : Option Url) (reqQuery : List (String × String))
    (doFetch : Url → Option FetchResp)
    (decrypt : List Nat → List Nat → Option (List Nat)) :
    (∀ u : Url,
      handleSingleChunk ror (some ck) chunkSize lookup reqQuery doFetch decrypt ≠
        SingleChunkOutcome.redirect u) ∧
    handleSingleChunk ror (some ck) chunkSize lookup reqQuery doFetch decrypt =
      (match lookup with
       | none => SingleChunkOutcome.lookupFailed
       | some u0 =>
         match doFetch (proxyTarget u0 reqQuery) with
         | none => SingleChunkOutcome.fetchFailed500
         | some resp => SingleChunkOutcome.proxied (proxyTarget u0 reqQuery)
             (writeEncryptedChunk decrypt resp ck chunkSize) 1) := by
  constructor
  · intro u
    unfold handleSingleChunk
    cases lookup with
    | none => simp
    | some u0 =>
      cases hdo : doFetch (proxyTarget u0 reqQuery) with
      | none => simp [hdo]
      | some resp => simp [hdo]
  · unfold handleSingleChunk
    cases lookup with
    | none => rfl
    | some u0 =>
      cases hdo : doFetch (proxyTarget u0 reqQuery) with
      | none => simp [hdo]
      | some resp => simp [hdo]

/-- C9: on the proxied encrypted path, when the upstream fetch connects but
reading the body fails, or the body reads but decryption fails, the client
gets status 404 (not 500) and exactly one upstream fetch was issued. -/
theorem encrypted_failure_is_not_found (ror : Bool) (ck : List Nat)
    (chunkSize : Nat) (u0 : Url) (reqQuery : List (String × String))
    (doFetch : Url → Option FetchResp)
    (decrypt : List Nat → List Nat → Option (List Nat)) (resp : FetchResp)
    (hdo : doFetch (proxyTarget u0 reqQuery) = some resp)
    (hfail : resp.body = none ∨ ∀ b, resp.body = some b → decrypt b ck = none) :
    handleSingleChunk ror (some ck) chunkSize (some u0) reqQuery doFetch decrypt =
      SingleChunkOutcome.proxied (proxyTarget u0 reqQuery) ⟨404, none, []⟩ 1 := by
  have hw : writeEncryptedChunk decrypt resp ck chunkSize = ⟨404, none, []⟩ := by
    rcases hfail with h | h
    · unfold writeEncryptedChunk
      rw [h]
    · cases hb : resp.body with
      | none =>
        unfold writeEncryptedChunk
        rw [hb]
      | some b =>
        unfold writeEncryptedChunk
        rw [hb]
        simp [h b hb]
  simp [handleSingleChunk, hdo, hw]

/-- C9 at a concrete input: the body read fails, the client gets 404. -/
theorem encrypted_failure_is_not_found_concrete :
    handleSingleChunk true [9] 5 (some ⟨"http://vol/3,01", []⟩) []
      (fun _ => some ⟨200, none⟩) (fun _ _ => none) =
      SingleChunkOutcome.proxied (proxyTarget ⟨"http://vol/3,01", []⟩ [])
        ⟨404, none, []⟩ 1 :=
  encrypted_failure_is_not_found true [9] 5 ⟨"http://vol/3,01", []⟩ []
    (fun _ => some ⟨200, none⟩) (fun _ _ => none) ⟨200, none⟩ rfl (Or.inl rfl)

/-- C1: a two-chunk file of total size 5 asked for ranges 0-4,0-4,0-4 (their
lengths sum to 15 > 5): the source's bare `return` at lines 202-208 writes no
body at all, where the claim (and the net/http original, which nils the range
list and falls through) serves the full unranged content. -/
theorem oversized_ranges_write_no_body :
    handleMultipleChunks
      ⟨"f", false, "", 0,
        [⟨"1,ab", 0, 3, none, "e1"⟩, ⟨"2,cd", 3, 2, none, "e2"⟩]⟩
      "bytes=0-4,0-4,0-4"
      (fun _ _ => some [⟨0, 5⟩, ⟨0, 5⟩, ⟨0, 5⟩]) =
      MultiChunkOutcome.noBodyWritten ∧
    MultiChunkOutcome.noBodyWritten ≠ MultiChunkOutcome.fullContent 5 := by
  exact ⟨by decide, by decide⟩

end SeaweedFS
